import Mathlib

/-!
Verification of the cookie-auth demo (seed/wasm client + actix server).

Client embedding (src/client/src/lib.rs): the seed `Model`, `Page`, `User`
and `Msg` types and the `update` reducer are translated directly.  Machine
aspects modelled explicitly:

* A URL is modelled as its list of path parts relative to the root base URL
  (the app is mounted at the root, so `url.to_base_url()` has no path parts
  and `next_path_part()` reads the head of the list).
* `request_url` calls `orders.notify(subs::UrlRequested::new(url))`; the seed
  runtime handles a `UrlRequested` notification synchronously within the same
  effect-processing cycle, firing the `UrlChanged` subscription before any
  queued network completion can be processed.  It is therefore embedded as the
  atomic recomputation `page := Page.init url user` performed by the
  `Msg::UrlChanged` arm.
* `orders.perform_cmd` starts an asynchronous fetch; its completion re-enters
  later as an ordinary message (`AuthStatus`, `LoginResponse`,
  `LogoutResponse`).  The requests a message constructs are captured by
  `update_cmds`; the base64 Basic header built with the external `base64`
  crate is recorded as the credential pair it encodes.

Server embedding (src/server/src/main.rs): the `login` handler.  The external
`base64::decode` + `String::from_utf8` composition is an I/O-boundary library
call and is passed in as an oracle `String → Option String` (`none` exactly
when one of the two `unwrap`s on it would panic).  Rust's `str::split` is
embedded character-exactly by `splitCharsAux`/`rustSplit`.
-/

/-- `const LOGIN: &str = "login"`. -/
def LOGIN : String := "login"

/-- `enum User { Anonymous, Loading, Loaded(String) }`. `Loading` is the
spec's `Pending`, `Loaded` its `Authenticated`. -/
inductive User where
  | Anonymous : User
  | Loading : User
  | Loaded : String → User
deriving DecidableEq

/-- `enum Page { Login { username, password }, Dashboard, NotFound }`. -/
inductive Page where
  | Login : String → String → Page
  | Dashboard : Page
  | NotFound : Page
deriving DecidableEq

/-- `struct Model { base_url: Url, page: Page, user: User }`. -/
structure Model where
  base_url : List String
  page : Page
  user : User
deriving DecidableEq

/-- `Page::init(url, user)`: under `Anonymous` every URL yields an empty login
form; under `Loading`/`Loaded` the first remaining path part is matched —
none ⇒ `Dashboard`, `LOGIN` ⇒ login form, anything else ⇒ `NotFound`. -/
def Page.init (url : List String) (user : User) : Page :=
  match user with
  | User.Anonymous => Page.Login "" ""
  | User.Loading | User.Loaded _ =>
    match url with
    | [] => Page.Dashboard
    | part :: _ => if part = LOGIN then Page.Login "" "" else Page.NotFound

/-- `Urls::home(self) = self.base_url()`. -/
def urls_home (base : List String) : List String := base

/-- `Urls::login(self) = self.base_url().add_path_part(LOGIN)`. -/
def urls_login (base : List String) : List String := base ++ [LOGIN]

/-- The transport errors a `fetch::Result` can carry (spec §4.4
`TransportError`): timeout, network failure, or a non-2xx status mapped by
`check_status`. -/
inductive FetchError where
  | Timeout : FetchError
  | NetworkFailure : FetchError
  | HttpStatus : Nat → FetchError
deriving DecidableEq

/-- `enum Msg` of the client. `fetch::Result<T>` is `Except FetchError T`. -/
inductive Msg where
  | UrlChanged : List String → Msg
  | UpdateLoginUser : String → Msg
  | UpdateLoginPass : String → Msg
  | Login : Msg
  | LoginResponse : Except FetchError String → Msg
  | Logout : Msg
  | LogoutResponse : Except FetchError Unit → Msg
  | CheckAuth : Msg
  | AuthStatus : Except FetchError String → Msg

/-- `fn request_url(url, orders)`: notifies `UrlRequested`, which the seed
runtime turns synchronously into `UrlChanged(url)`, whose arm recomputes
`model.page = Page::init(url, &model.user)`. -/
def request_url (url : List String) (m : Model) : Model :=
  { m with page := Page.init url m.user }

/-- `fn update(msg, model, orders)` — the model mutation of each arm
(the requests the arms start are in `update_cmds`). -/
def update (msg : Msg) (m : Model) : Model :=
  match msg with
  | Msg.UrlChanged url => { m with page := Page.init url m.user }
  | Msg.CheckAuth => m
  | Msg.AuthStatus (Except.ok user) =>
    if user = "" then
      request_url (urls_login m.base_url) { m with user := User.Anonymous }
    else
      { m with user := User.Loaded user }
  | Msg.AuthStatus (Except.error _) =>
    request_url (urls_login m.base_url) { m with user := User.Anonymous }
  | Msg.UpdateLoginUser user =>
    match m.page with
    | Page.Login _ password => { m with page := Page.Login user password }
    | _ => m
  | Msg.UpdateLoginPass pass =>
    match m.page with
    | Page.Login username _ => { m with page := Page.Login username pass }
    | _ => m
  | Msg.Login => m
  | Msg.LoginResponse (Except.ok user) =>
    if user = "" then
      request_url (urls_login m.base_url) { m with user := User.Anonymous }
    else
      request_url (urls_home m.base_url) { m with user := User.Loaded user }
  | Msg.LoginResponse (Except.error _) =>
    request_url (urls_login m.base_url) { m with user := User.Anonymous }
  | Msg.Logout => m
  | Msg.LogoutResponse (Except.ok _) =>
    request_url (urls_login m.base_url) { m with user := User.Anonymous }
  | Msg.LogoutResponse (Except.error _) => m

/-- An HTTP request as constructed by the client arms: URL, the Basic-auth
credential pair encoded into the `Authorization` header (via the external
`base64` crate), and the `.timeout(..)` value when one is set. -/
structure Request where
  url : String
  basicCreds : Option (String × String)
  timeoutMs : Option Nat
deriving DecidableEq

/-- The fetches each `update` arm starts with `orders.perform_cmd`:
`CheckAuth` fetches `/auth/check` with `.timeout(5_000)`; `Login` (only when
the current page is the login form) fetches `/auth/login` with the Basic
header and `.timeout(5_000)`; `Logout` fetches `/auth/logout` with no
`.timeout` call. -/
def update_cmds (msg : Msg) (m : Model) : List Request :=
  match msg with
  | Msg.CheckAuth =>
    [{ url := "/auth/check", basicCreds := none, timeoutMs := some 5000 }]
  | Msg.Login =>
    match m.page with
    | Page.Login username password =>
      [{ url := "/auth/login", basicCreds := some (username, password),
         timeoutMs := some 5000 }]
    | _ => []
  | Msg.Logout =>
    [{ url := "/auth/logout", basicCreds := none, timeoutMs := none }]
  | _ => []

/-- `fn init(url, orders)`: subscribes to `UrlChanged`, dispatches one
`CheckAuth`, and builds the model with `user = Loading` and the page resolved
from the startup URL under `Loading`. -/
def init (url : List String) : Model :=
  { base_url := [], page := Page.init url User.Loading, user := User.Loading }

/-- Processing a list of dispatched messages in arrival order (the seed event
loop runs each `update` to completion before the next message). -/
def run (msgs : List Msg) (m : Model) : Model :=
  msgs.foldl (fun m msg => update msg m) m

/-- The states the client session model can reach: the startup model of any
URL, closed under processing any dispatched message. -/
inductive Reachable : Model → Prop where
  | start (url : List String) : Reachable (init url)
  | step (m : Model) (msg : Msg) : Reachable m → Reachable (update msg m)

/-- The rendered node, keeping what the claims inspect: the login form with
its draft values, the dashboard greeting a loaded user, or a plain text div
(`"unexpected model state"` / `"Page not found"`). -/
inductive ViewNode where
  | loginForm : String → String → ViewNode
  | dashboard : String → ViewNode
  | text : String → ViewNode
deriving DecidableEq

/-- `fn view(model)`: the `Dashboard` arm greets the user only under
`User::Loaded`, and otherwise falls back to `div!["unexpected model state"]`. -/
def view (m : Model) : ViewNode :=
  match m.page with
  | Page.Login username password => ViewNode.loginForm username password
  | Page.Dashboard =>
    match m.user with
    | User.Loaded user => ViewNode.dashboard user
    | _ => ViewNode.text "unexpected model state"
  | Page.NotFound => ViewNode.text "Page not found"

/-- Character-exact embedding of Rust's `str::split(sep)`: accumulate the
current chunk, emitting it at each separator and at the end (so the result is
never empty and empty chunks are preserved). -/
def splitCharsAux (sep : Char) : List Char → List Char → List (List Char)
  | [], acc => [acc.reverse]
  | c :: cs, acc =>
    if c = sep then acc.reverse :: splitCharsAux sep cs []
    else splitCharsAux sep cs (c :: acc)

/-- Rust's `s.split(sep)` collected into a list of strings. -/
def rustSplit (sep : Char) (s : String) : List String :=
  (splitCharsAux sep s.data []).map String.mk

/-- Outcome of the actix `login` handler: either some `unwrap` panicked (the
handler aborts, no HTTP response is produced), or it remembered a user in the
identity cookie and responded with a status and body. -/
inductive ServerResult where
  | panicked : ServerResult
  | ok : String → Nat → String → ServerResult
deriving DecidableEq

/-- `async fn login(id, req)`: take the Authorization header (unwrap — a
missing header panics), keep the chunk after the last space (`split(' ')
.last().unwrap()`), base64-decode it and read it as UTF-8 (`decodeUtf8Base64`
oracle for the external `base64::decode` + `String::from_utf8`; `none` is the
panicking unwrap), split the decoded token at `':'` and take the first chunk
as the user, `id.remember(user)` and respond `200` with body `user`.  The
3-second `delay_for` only delays the response. -/
def login (decodeUtf8Base64 : String → Option String)
    (authHeader : Option String) : ServerResult :=
  match authHeader with
  | none => ServerResult.panicked
  | some header =>
    let token := (rustSplit ' ' header).getLastD ""
    match decodeUtf8Base64 token with
    | none => ServerResult.panicked
    | some decoded =>
      let user := (rustSplit ':' decoded).headD ""
      ServerResult.ok user 200 user

theorem splitCharsAux_ne_nil (sep : Char) (cs acc : List Char) :
    splitCharsAux sep cs acc ≠ [] := by
  induction cs generalizing acc with
  | nil => simp [splitCharsAux]
  | cons c cs ih =>
    by_cases h : c = sep
    · simp [splitCharsAux, h]
    · simpa [splitCharsAux, h] using ih (c :: acc)

theorem splitCharsAux_head (sep : Char) (cs acc : List Char) :
    (splitCharsAux sep cs acc).headD [] =
      acc.reverse ++ cs.takeWhile (fun c => c != sep) := by
  induction cs generalizing acc with
  | nil => simp [splitCharsAux]
  | cons c cs ih =>
    by_cases h : c = sep
    · simp [splitCharsAux, h, List.takeWhile]
    · have hb : (c != sep) = true := bne_iff_ne.mpr h
      rw [splitCharsAux, if_neg h, ih (c :: acc)]
      simp [List.takeWhile, hb]

/-- The first chunk of Rust's `split(sep)` is the longest separator-free
prefix. -/
theorem rustSplit_headD (sep : Char) (s : String) :
    (rustSplit sep s).headD "" = String.mk (s.data.takeWhile (fun c => c != sep)) := by
  unfold rustSplit
  cases hl : splitCharsAux sep s.data [] with
  | nil => exact absurd hl (splitCharsAux_ne_nil sep s.data [])
  | cons h t =>
    have hh := splitCharsAux_head sep s.data []
    rw [hl] at hh
    simp at hh
    simp [hh]

theorem takeWhile_append_colon (u rest : List Char) (hu : ':' ∉ u) :
    (u ++ ':' :: rest).takeWhile (fun c => c != ':') = u := by
  induction u with
  | nil => simp [List.takeWhile]
  | cons c cs ih =>
    have hc : c ≠ ':' := fun h => hu (h ▸ List.mem_cons_self c cs)
    have hcs : ':' ∉ cs := fun h => hu (List.mem_cons_of_mem c h)
    have hb : (c != ':') = true := bne_iff_ne.mpr hc
    simp [List.takeWhile, hb, ih hcs]

theorem takeWhile_of_not_mem_colon (l : List Char) (hl : ':' ∉ l) :
    l.takeWhile (fun c => c != ':') = l := by
  induction l with
  | nil => rfl
  | cons c cs ih =>
    have hc : c ≠ ':' := fun h => hl (h ▸ List.mem_cons_self c cs)
    have hcs : ':' ∉ cs := fun h => hl (List.mem_cons_of_mem c h)
    have hb : (c != ':') = true := bne_iff_ne.mpr hc
    simp [List.takeWhile, hb, ih hcs]

/-- Session invariant: an anonymous user is always looking at the login
form. -/
def AnonOnLogin (m : Model) : Prop :=
  m.user = User.Anonymous → ∃ u p, m.page = Page.Login u p

theorem anonOnLogin_init (url : List String) : AnonOnLogin (init url) := by
  intro hu
  exact absurd hu (by simp [init])

theorem anonOnLogin_update (msg : Msg) (m : Model) (h : AnonOnLogin m) :
    AnonOnLogin (update msg m) := by
  cases msg with
  | UrlChanged url =>
    intro hu
    replace hu : m.user = User.Anonymous := hu
    refine ⟨"", "", ?_⟩
    show Page.init url m.user = Page.Login "" ""
    rw [hu]
    rfl
  | CheckAuth => exact h
  | AuthStatus r =>
    cases r with
    | ok user =>
      by_cases hc : user = ""
      · intro _
        simp only [update, if_pos hc]
        exact ⟨"", "", rfl⟩
      · intro hu
        simp only [update, if_neg hc] at hu
        exact absurd hu (by simp)
    | error e => exact fun _ => ⟨"", "", rfl⟩
  | UpdateLoginUser user =>
    cases hp : m.page with
    | Login u p =>
      intro _
      exact ⟨user, p, by simp [update, hp]⟩
    | Dashboard =>
      intro hu
      have hu' : m.user = User.Anonymous := by simpa [update, hp] using hu
      obtain ⟨u, p, hl⟩ := h hu'
      rw [hp] at hl
      exact Page.noConfusion hl
    | NotFound =>
      intro hu
      have hu' : m.user = User.Anonymous := by simpa [update, hp] using hu
      obtain ⟨u, p, hl⟩ := h hu'
      rw [hp] at hl
      exact Page.noConfusion hl
  | UpdateLoginPass pass =>
    cases hp : m.page with
    | Login u p =>
      intro _
      exact ⟨u, pass, by simp [update, hp]⟩
    | Dashboard =>
      intro hu
      have hu' : m.user = User.Anonymous := by simpa [update, hp] using hu
      obtain ⟨u, p, hl⟩ := h hu'
      rw [hp] at hl
      exact Page.noConfusion hl
    | NotFound =>
      intro hu
      have hu' : m.user = User.Anonymous := by simpa [update, hp] using hu
      obtain ⟨u, p, hl⟩ := h hu'
      rw [hp] at hl
      exact Page.noConfusion hl
  | Login => exact h
  | LoginResponse r =>
    cases r with
    | ok user =>
      by_cases hc : user = ""
      · intro _
        simp only [update, if_pos hc]
        exact ⟨"", "", rfl⟩
      · intro hu
        simp only [update, if_neg hc] at hu
        exact absurd hu (by simp [request_url])
    | error e => exact fun _ => ⟨"", "", rfl⟩
  | Logout => exact h
  | LogoutResponse r =>
    cases r with
    | ok u => exact fun _ => ⟨"", "", rfl⟩
    | error e => exact h

/-- Every reachable state satisfies the anonymous-on-login invariant. -/
theorem reachable_anonOnLogin (m : Model) (h : Reachable m) : AnonOnLogin m := by
  induction h with
  | start url => exact anonOnLogin_init url
  | step m msg _ ih => exact anonOnLogin_update msg m ih

/-- C1: the code has no request-sequence counter — in the interleaving where
a login is issued while a check is outstanding and the stale check completion
(empty body: the server saw no cookie yet) arrives after the login's
successful completion, the check's result overwrites the login's and the
final `authStatus` is `Anonymous`, not `Authenticated("alice")` as the claim
requires. -/
theorem stale_check_overwrites_login :
    (run [Msg.UpdateLoginUser "alice", Msg.UpdateLoginPass "pw", Msg.CheckAuth,
        Msg.Login, Msg.LoginResponse (Except.ok "alice"),
        Msg.AuthStatus (Except.ok "")] (init [LOGIN])).user = User.Anonymous ∧
      (run [Msg.UpdateLoginUser "alice", Msg.UpdateLoginPass "pw", Msg.CheckAuth,
        Msg.Login, Msg.LoginResponse (Except.ok "alice"),
        Msg.AuthStatus (Except.ok "")] (init [LOGIN])).user ≠
        User.Loaded "alice" := by decide

/-- C2 (counterexample): the startup state at the root URL is reachable, its
page is `Dashboard`, and its `authStatus` is `Loading` (the spec's
`Pending`), not `Authenticated(_)` — so `Dashboard` does not imply
`Authenticated` and the "unexpected model state" rendering is reachable. -/
theorem dashboard_reachable_while_loading :
    Reachable (init []) ∧ (init []).page = Page.Dashboard ∧
      (init []).user = User.Loading ∧ ∀ u, (init []).user ≠ User.Loaded u :=
  ⟨Reachable.start [], rfl, rfl, fun _ h => User.noConfusion h⟩

/-- C2 (amended): in every reachable state whose page is `Dashboard` the
`authStatus` is not `Anonymous` (it is `Pending` or `Authenticated`); the
`Pending` case is reachable, so `Authenticated` alone is not implied. -/
theorem dashboard_never_anonymous (m : Model) (hr : Reachable m)
    (hp : m.page = Page.Dashboard) : m.user ≠ User.Anonymous := by
  intro ha
  obtain ⟨u, p, hl⟩ := reachable_anonOnLogin m hr ha
  rw [hp] at hl
  exact Page.noConfusion hl

/-- Witness for C2's amended theorem at the startup state of the root URL. -/
theorem dashboard_never_anonymous_witness :
    (init []).page = Page.Dashboard ∧ (init []).user ≠ User.Anonymous :=
  ⟨rfl, dashboard_never_anonymous (init []) (Reachable.start []) rfl⟩

/-- C3: in every reachable state, `Anonymous` implies the current page is the
login form; and route resolution under `Anonymous` yields the login form with
empty drafts for every requested path. -/
theorem anonymous_implies_login_page :
    (∀ m, Reachable m → m.user = User.Anonymous →
        ∃ u p, m.page = Page.Login u p) ∧
      ∀ url, Page.init url User.Anonymous = Page.Login "" "" :=
  ⟨fun m hr => reachable_anonOnLogin m hr, fun _ => rfl⟩

/-- Witness for C3 at the state reached from startup by a failed check. -/
theorem anonymous_implies_login_page_witness :
    ∃ u p, (update (Msg.AuthStatus (Except.error FetchError.Timeout))
      (init [])).page = Page.Login u p :=
  anonymous_implies_login_page.1 _
    (Reachable.step (init []) (Msg.AuthStatus (Except.error FetchError.Timeout))
      (Reachable.start [])) rfl

/-- C4: the server's `login` handler does not respond `400 Bad Request` on a
missing or malformed Authorization header — it `unwrap`s and panics: with no
header, and with a header whose token fails base64/UTF-8 decoding, the
handler's outcome is a panic, never an HTTP response. -/
theorem login_missing_header_panics :
    (∀ decode : String → Option String,
        login decode none = ServerResult.panicked) ∧
      ∀ (decode : String → Option String) (h : String),
        decode ((rustSplit ' ' h).getLastD "") = none →
          login decode (some h) = ServerResult.panicked := by
  refine ⟨fun decode => rfl, fun decode h hd => ?_⟩
  simp only [login]
  rw [hd]

/-- Witness for C4: a request with no header, and one whose token decodes to
nothing, both panic. -/
theorem login_missing_header_panics_witness :
    login (fun _ => none) none = ServerResult.panicked ∧
      login (fun _ => none) (some "Basic ???") = ServerResult.panicked :=
  ⟨login_missing_header_panics.1 _,
   login_missing_header_panics.2 _ "Basic ???" rfl⟩

/-- C5 (counterexample): a logout transport error does not fold to
`Anonymous` — from an authenticated dashboard state, `LogoutResponse(Err)`
keeps `authStatus = Authenticated("alice")`. -/
theorem logout_error_keeps_user :
    (update (Msg.LogoutResponse (Except.error FetchError.Timeout))
        { base_url := [], page := Page.Dashboard,
          user := User.Loaded "alice" }).user = User.Loaded "alice" ∧
      User.Loaded "alice" ≠ User.Anonymous := by decide

/-- C5 (amended): check and login transport errors are recovered locally by
folding to `Anonymous` and navigating to the login page; a logout transport
error is only reported and leaves the model unchanged; `update` is a total
function, so no completion error propagates to the caller of dispatch. -/
theorem transport_error_recovery :
    ∀ (m : Model) (e : FetchError),
      update (Msg.AuthStatus (Except.error e)) m =
          { m with user := User.Anonymous, page := Page.Login "" "" } ∧
        update (Msg.LoginResponse (Except.error e)) m =
          { m with user := User.Anonymous, page := Page.Login "" "" } ∧
        update (Msg.LogoutResponse (Except.error e)) m = m :=
  fun _ _ => ⟨rfl, rfl, rfl⟩

/-- C6: `LogoutCompleted(Err(_))` only reports the failure: `authStatus`,
`currentPage` and `baseUrl` all keep their prior values, for every model and
every error. -/
theorem logout_error_frame :
    ∀ (m : Model) (e : FetchError),
      (update (Msg.LogoutResponse (Except.error e)) m).user = m.user ∧
        (update (Msg.LogoutResponse (Except.error e)) m).page = m.page ∧
        (update (Msg.LogoutResponse (Except.error e)) m).base_url = m.base_url :=
  fun _ _ => ⟨rfl, rfl, rfl⟩

/-- C7 (counterexample): the path `login/extra` is neither the empty path nor
the path `login`, yet it resolves to the login form, not `NotFound` — route
resolution inspects only the first path segment. -/
theorem route_login_prefix_not_notfound :
    Page.init ["login", "extra"] User.Loading = Page.Login "" "" ∧
      (["login", "extra"] : List String) ≠ [] ∧
      (["login", "extra"] : List String) ≠ ["login"] := by decide

/-- C7 (amended): route resolution is a total function of (url, authStatus):
under `Anonymous` every path yields the empty login form; otherwise it is
decided by the first path segment — none ⇒ `Dashboard`, `"login"` ⇒ login
form (whatever follows), any other first segment ⇒ `NotFound`; and
`UrlChanged` recomputes the page by exactly this rule. -/
theorem route_resolution_first_segment :
    (∀ url, Page.init url User.Anonymous = Page.Login "" "") ∧
      (∀ u, u ≠ User.Anonymous → Page.init [] u = Page.Dashboard) ∧
      (∀ u rest, u ≠ User.Anonymous →
        Page.init (LOGIN :: rest) u = Page.Login "" "") ∧
      (∀ u part rest, u ≠ User.Anonymous → part ≠ LOGIN →
        Page.init (part :: rest) u = Page.NotFound) ∧
      ∀ m url, update (Msg.UrlChanged url) m =
        { m with page := Page.init url m.user } := by
  refine ⟨fun _ => rfl, ?_, ?_, ?_, fun m url => rfl⟩
  · intro u hu
    cases u with
    | Anonymous => exact absurd rfl hu
    | Loading => rfl
    | Loaded s => rfl
  · intro u rest hu
    cases u with
    | Anonymous => exact absurd rfl hu
    | Loading => simp [Page.init]
    | Loaded s => simp [Page.init]
  · intro u part rest hu hp
    cases u with
    | Anonymous => exact absurd rfl hu
    | Loading => simp [Page.init, hp]
    | Loaded s => simp [Page.init, hp]

/-- Witness for C7's amended theorem at concrete users and paths. -/
theorem route_resolution_first_segment_witness :
    Page.init [] User.Loading = Page.Dashboard ∧
      Page.init [LOGIN] (User.Loaded "alice") = Page.Login "" "" ∧
      Page.init ["x"] User.Loading = Page.NotFound :=
  ⟨route_resolution_first_segment.2.1 User.Loading (by decide),
   route_resolution_first_segment.2.2.1 (User.Loaded "alice") [] (by decide),
   route_resolution_first_segment.2.2.2.1 User.Loading "x" [] (by decide)
     (by decide)⟩

/-- C8 (counterexample): the logout request is constructed without any
`.timeout(..)` call, so not with the claimed fixed 5000 ms timeout. -/
theorem logout_request_has_no_timeout :
    update_cmds Msg.Logout (init []) =
        [{ url := "/auth/logout", basicCreds := none, timeoutMs := none }] ∧
      (update_cmds Msg.Logout (init [])).map Request.timeoutMs ≠
        [some 5000] := by decide

/-- C8 (amended): the check and login requests are constructed with a fixed
5000 ms timeout (logout is not, see the counterexample), and every completion
error — timeout, network failure, or HTTP status — is handled identically by
the corresponding `update` arm. -/
theorem check_login_timeout_and_uniform_errors :
    (∀ m : Model, update_cmds Msg.CheckAuth m =
        [{ url := "/auth/check", basicCreds := none, timeoutMs := some 5000 }]) ∧
      (∀ (m : Model) (u p : String),
        update_cmds Msg.Login { m with page := Page.Login u p } =
          [{ url := "/auth/login", basicCreds := some (u, p),
             timeoutMs := some 5000 }]) ∧
      (∀ (m : Model) (e e' : FetchError),
        update (Msg.AuthStatus (Except.error e)) m =
          update (Msg.AuthStatus (Except.error e')) m) ∧
      (∀ (m : Model) (e e' : FetchError),
        update (Msg.LoginResponse (Except.error e)) m =
          update (Msg.LoginResponse (Except.error e')) m) ∧
      ∀ (m : Model) (e e' : FetchError),
        update (Msg.LogoutResponse (Except.error e)) m =
          update (Msg.LogoutResponse (Except.error e')) m :=
  ⟨fun _ => rfl, fun _ _ _ => rfl, fun _ _ _ => rfl, fun _ _ _ => rfl,
   fun _ _ _ => rfl⟩

/-- C9: in the reachable startup state (page `Dashboard`, `authStatus`
`Loading`/`Pending`) the Dashboard view falls back to the
`"unexpected model state"` text, not a non-fatal "still loading" display as
the claim requires. -/
theorem dashboard_view_unexpected_state :
    Reachable (init []) ∧ (init []).page = Page.Dashboard ∧
      (init []).user = User.Loading ∧
      view (init []) = ViewNode.text "unexpected model state" :=
  ⟨Reachable.start [], rfl, rfl, rfl⟩

/-- C10: when the Authorization header is present and its token decodes, the
server remembers and echoes (status 200) exactly the longest `':'`-free
prefix of the decoded token as the username: the whole token when it has no
`':'`, and the part before the first `':'` for a `user:pass` pair — whatever
the password is, so a pair with no separator also succeeds. -/
theorem login_parses_username :
    ∀ (decode : String → Option String) (h dec : String),
      decode ((rustSplit ' ' h).getLastD "") = some dec →
        login decode (some h) =
            ServerResult.ok (String.mk (dec.data.takeWhile (fun c => c != ':')))
              200 (String.mk (dec.data.takeWhile (fun c => c != ':'))) ∧
          ((':' ∉ dec.data) →
            login decode (some h) = ServerResult.ok dec 200 dec) ∧
          ∀ u p : String, (':' ∉ u.data) → dec = u ++ ":" ++ p →
            login decode (some h) = ServerResult.ok u 200 u := by
  intro decode h dec hd
  have hlogin : login decode (some h) =
      ServerResult.ok ((rustSplit ':' dec).headD "") 200
        ((rustSplit ':' dec).headD "") := by
    simp only [login]
    rw [hd]
  have hhead := rustSplit_headD ':' dec
  refine ⟨?_, ?_, ?_⟩
  · rw [hlogin, hhead]
  · intro hno
    rw [hlogin, hhead, takeWhile_of_not_mem_colon dec.data hno]
  · intro u p hu hdec
    subst hdec
    have hdata : (u ++ ":" ++ p).data = u.data ++ ':' :: p.data := by
      rw [String.data_append, String.data_append]
      simp
    rw [hlogin, hhead, hdata, takeWhile_append_colon u.data p.data hu]

/-- Witness for C10: the header `Basic YWxpY2U6cHc=` whose token decodes to
`alice:pw` logs in and echoes `alice`, never reading the password. -/
theorem login_parses_username_witness :
    login (fun s => if s = "YWxpY2U6cHc=" then some "alice:pw" else none)
        (some "Basic YWxpY2U6cHc=") = ServerResult.ok "alice" 200 "alice" :=
  (login_parses_username
      (fun s => if s = "YWxpY2U6cHc=" then some "alice:pw" else none)
      "Basic YWxpY2U6cHc=" "alice:pw" (by decide)).2.2 "alice" "pw"
    (by decide) (by decide)
